import Mathlib

/-!
Shallow embedding of the SACA colocalization engine of the imgal repository:
`saca_2d`, `single_iteration_2d` and `fill_buffers_2d` from
imgal_core/src/colocalization/saca.rs, the weighted circle kernel from
imgal/src/kernel/neighborhood.rs, and the statistics primitives they call.
Rust `f64` values are modelled as real numbers, `Vec`s as lists, and 2-d
`ndarray` arrays as index functions `Nat → Nat → ℝ` together with explicitly
passed dimensions.
-/

noncomputable section

open Classical

/-- Error type of the array routines (`ArrayError` in imgal_core; the same
constructors appear as `ImgalError` in the imgal crate). -/
inductive ArrayError where
  | MismatchedArrayShapes (shape_a shape_b : List Nat)
  | InvalidArrayParameterValueLess (param_name : String) (value : Nat)
  | InvalidArrayParameterValueEqual (param_name : String) (value : Nat)
  deriving DecidableEq

/-- Per-cell weight of `weighted_circle`: the body of its `indexed_iter_mut`
closure in imgal/src/kernel/neighborhood.rs, at cell `(row, col)` of the
`(2*radius+1) × (2*radius+1)` kernel array. -/
def weighted_circle_cell (circle_radius : Nat) (falloff_radius iv : ℝ)
    (row col : Nat) : ℝ :=
  let center : ℝ := circle_radius
  let norm_dist :=
    Real.sqrt (((col : ℝ) - center) ^ 2 + ((row : ℝ) - center) ^ 2) / falloff_radius
  if norm_dist ≤ center / falloff_radius then
    (if norm_dist ≥ iv then 0 else iv - norm_dist)
  else 0

/-- `weighted_circle` from imgal/src/kernel/neighborhood.rs; the kernel array is
modelled as its index function (callers only read indices below `2*radius+1`). -/
def weighted_circle (circle_radius : Nat) (falloff_radius : ℝ)
    (initial_value : Option ℝ) : Except ArrayError (Nat → Nat → ℝ) :=
  if circle_radius = 0 then
    .error (.InvalidArrayParameterValueLess "circle_radius" 0)
  else
    .ok fun row col =>
      weighted_circle_cell circle_radius falloff_radius (initial_value.getD 1) row col

/-- `get_start_position` from saca.rs. -/
def get_start_position (location radius : Nat) : Nat :=
  if location < radius then 0 else location - radius

/-- `get_end_position` from saca.rs. -/
def get_end_position (location radius boundary : Nat) : Nat :=
  if location + radius ≥ boundary then boundary - 1 else location + radius

/-- Modelled from the spec: `effective_sample_size` (the body of
statistics/sample.rs is not under src, only its `mod.rs` declaration); Kish's
formula `(Σw)² / Σw²`, and `0` when every weight is `0`. -/
def effective_sample_size (weights : List ℝ) : ℝ :=
  if ∀ w ∈ weights, w = 0 then 0
  else weights.sum ^ 2 / (weights.map fun w => w ^ 2).sum

/-- Modelled from the spec: `weighted_kendall_tau_b` (the body of
statistics/kendall_tau.rs is not under src, only its `mod.rs` declaration).
Pairwise weighted concordant/discordant and tie weights,
`tau_b = (C - D) / sqrt((T - tie_a) * (T - tie_b))`, and a degenerate result
(`none`) when the denominator is zero. -/
def weighted_kendall_tau_b (a b w : List ℝ) : Option ℝ :=
  let n := a.length
  let pair : (Nat → Nat → ℝ) → ℝ := fun f =>
    ∑ i ∈ Finset.range n, ∑ j ∈ Finset.Ico (i + 1) n, f i j
  let wp : Nat → Nat → ℝ := fun i j => w.getD i 0 * w.getD j 0
  let concordant := pair fun i j =>
    if (a.getD i 0 < a.getD j 0 ∧ b.getD i 0 < b.getD j 0) ∨
        (a.getD j 0 < a.getD i 0 ∧ b.getD j 0 < b.getD i 0) then wp i j else 0
  let discordant := pair fun i j =>
    if (a.getD i 0 < a.getD j 0 ∧ b.getD j 0 < b.getD i 0) ∨
        (a.getD j 0 < a.getD i 0 ∧ b.getD i 0 < b.getD j 0) then wp i j else 0
  let tie_a := pair fun i j => if a.getD i 0 = a.getD j 0 then wp i j else 0
  let tie_b := pair fun i j => if b.getD i 0 = b.getD j 0 then wp i j else 0
  let total := pair wp
  let denom := Real.sqrt ((total - tie_a) * (total - tie_b))
  if denom = 0 then none else some ((concordant - discordant) / denom)

/-- The row-major list of window cells `(r, c)`, `r ∈ [rs, re]`, `c ∈ [cs, ce]`:
the zipped range iterators of `fill_buffers_2d`. -/
def saca_window (rs re cs ce : Nat) : List (Nat × Nat) :=
  (List.range' rs (re + 1 - rs)).flatMap fun r =>
    (List.range' cs (ce + 1 - cs)).map fun c => (r, c)

/-- The consistency factor `fill_buffers_2d` computes for window cell `(r, c)`
around center `(pos_row, pos_col)`:
`|old_tau[r,c] - old_tau[center]| * (old_sqrt_n[center] / dn)`. -/
def consistency_factor (old_tau old_sqrt_n : Nat → Nat → ℝ) (dn : ℝ)
    (pos_row pos_col r c : Nat) : ℝ :=
  |old_tau r c - old_tau pos_row pos_col| * (old_sqrt_n pos_row pos_col / dn)

/-- The consistency factor as the spec's sentence words it — division by
`old_sqrt_n[center] / dn` instead of multiplication; kept only for comparison
with the source's formula. -/
def spec_consistency_factor (old_tau old_sqrt_n : Nat → Nat → ℝ) (dn : ℝ)
    (pos_row pos_col r c : Nat) : ℝ :=
  |old_tau r c - old_tau pos_row pos_col| / (old_sqrt_n pos_row pos_col / dn)

/-- `fill_buffers_2d` from saca.rs: returns `(buf_a, buf_b, buf_w)` of length
`buf_size`, window cells first and the remaining slots zero-filled. The kernel
index casts `((r as isize - pos_row) + radius) as usize` are modelled with
`Int.toNat`; they are nonnegative at every in-window cell. -/
def fill_buffers_2d (image_a image_b kernel old_tau old_sqrt_n : Nat → Nat → ℝ)
    (dn : ℝ) (radius pos_row pos_col : Nat)
    (buf_row_start buf_row_end buf_col_start buf_col_end buf_size : Nat) :
    List ℝ × List ℝ × List ℝ :=
  let ot := old_tau pos_row pos_col
  let on_dn := old_sqrt_n pos_row pos_col / dn
  let window := saca_window buf_row_start buf_row_end buf_col_start buf_col_end
  let pad := buf_size - window.length
  let buf_a := (window.map fun rc => image_a rc.1 rc.2) ++ List.replicate pad 0
  let buf_b := (window.map fun rc => image_b rc.1 rc.2) ++ List.replicate pad 0
  let buf_w := (window.map fun rc =>
    let kr := ((rc.1 : Int) - (pos_row : Int) + (radius : Int)).toNat
    let kc := ((rc.2 : Int) - (pos_col : Int) + (radius : Int)).toNat
    let tau_diff_abs := |old_tau rc.1 rc.2 - ot| * on_dn
    if tau_diff_abs < 1 then kernel kr kc * (1 - tau_diff_abs) ^ 2 else 0) ++
      List.replicate pad 0
  (buf_a, buf_b, buf_w)

/-- The thresholding pass of `single_iteration_2d`: zero the weight wherever the
raw `a` or `b` sample is below its threshold. -/
def threshold_weights (threshold_a threshold_b : ℝ) :
    List ℝ → List ℝ → List ℝ → List ℝ
  | a :: as, b :: bs, w :: ws =>
      (if a < threshold_a ∨ b < threshold_b then 0 else w) ::
        threshold_weights threshold_a threshold_b as bs ws
  | _, _, _ => []

/-- The per-run arrays of `saca_2d`: `result`, `new_tau`, `new_sqrt_n`,
`old_tau`, `old_sqrt_n`, and the three lanes of `stop` (stop flag, checkpoint
tau, checkpoint sqrt n). -/
structure SacaState where
  result : Nat → Nat → ℝ
  tau : Nat → Nat → ℝ
  sqrtN : Nat → Nat → ℝ
  oldTau : Nat → Nat → ℝ
  oldSqrtN : Nat → Nat → ℝ
  stopFlag : Nat → Nat → ℝ
  ckptTau : Nat → Nat → ℝ
  ckptN : Nat → Nat → ℝ

/-- The values one pixel's computation writes: `*re`, `*nt`, `*nn`. -/
structure PixelOut where
  res : ℝ
  tau : ℝ
  sqrtN : ℝ

/-- The kernel `single_iteration_2d` builds:
`weighted_circle(radius, radius as f64 * sqrt(2.5), None).unwrap()`. The error
case never occurs for the radii saca uses; it is mapped to the zero kernel. -/
def sacaKernel (radius : Nat) : Nat → Nat → ℝ :=
  match weighted_circle radius ((radius : ℝ) * Real.sqrt 2.5) none with
  | .ok k => k
  | .error _ => fun _ _ => 0

/-- The `(buf_a, buf_b, buf_w)` triple `single_iteration_2d` fills for pixel
`(row, col)`: clamped window bounds, then `fill_buffers_2d`. -/
def pixel_buffers (image_a image_b kernel old_tau old_sqrt_n : Nat → Nat → ℝ)
    (dn : ℝ) (rows cols radius row col : Nat) : List ℝ × List ℝ × List ℝ :=
  fill_buffers_2d image_a image_b kernel old_tau old_sqrt_n dn radius
    row col (get_start_position row radius) (get_end_position row radius rows)
    (get_start_position col radius) (get_end_position col radius cols)
    ((2 * radius + 1) * (2 * radius + 1))

/-- The per-pixel computation of `single_iteration_2d` — buffer fill,
thresholding, effective sample size, weighted tau, z-score — before the
stop-condition check. -/
def pixel_compute (image_a image_b : Nat → Nat → ℝ) (threshold_a threshold_b : ℝ)
    (rows cols : Nat) (kernel old_tau old_sqrt_n : Nat → Nat → ℝ) (dn : ℝ)
    (radius row col : Nat) : PixelOut :=
  let bufs := pixel_buffers image_a image_b kernel old_tau old_sqrt_n dn rows cols
    radius row col
  let buf_w := threshold_weights threshold_a threshold_b bufs.1 bufs.2.1 bufs.2.2
  let nn := Real.sqrt (effective_sample_size buf_w)
  if nn ≤ 0 then ⟨0, 0, nn⟩
  else
    let tau := (weighted_kendall_tau_b bufs.1 bufs.2.1 buf_w).getD 0
    ⟨tau * nn * 1.5, tau, nn⟩

/-- One SACA iteration, `single_iteration_2d` from saca.rs: per pixel
skip/compute/stop-check over all in-bounds pixels, then `old_tau := new_tau`
and `old_sqrt_n := new_sqrt_n`. -/
def single_iteration_2d (image_a image_b : Nat → Nat → ℝ)
    (threshold_a threshold_b : ℝ) (rows cols radius : Nat) (dn lambda : ℝ)
    (bound_check : Bool) (st : SacaState) : SacaState :=
  let kernel := sacaKernel radius
  let cell : Nat → Nat → ℝ × ℝ × ℝ × ℝ := fun row col =>
    if bound_check = true ∧ st.stopFlag row col ≠ 0 then
      (st.result row col, st.tau row col, st.sqrtN row col, st.stopFlag row col)
    else
      let p := pixel_compute image_a image_b threshold_a threshold_b rows cols
        kernel st.oldTau st.oldSqrtN dn radius row col
      if bound_check then
        if |st.ckptTau row col - p.tau| * st.ckptN row col > lambda then
          (p.res, st.oldTau row col, st.oldSqrtN row col, 1)
        else (p.res, p.tau, p.sqrtN, st.stopFlag row col)
      else (p.res, p.tau, p.sqrtN, st.stopFlag row col)
  let res' : Nat → Nat → ℝ := fun r c =>
    if r < rows ∧ c < cols then (cell r c).1 else st.result r c
  let tau' : Nat → Nat → ℝ := fun r c =>
    if r < rows ∧ c < cols then (cell r c).2.1 else st.tau r c
  let n' : Nat → Nat → ℝ := fun r c =>
    if r < rows ∧ c < cols then (cell r c).2.2.1 else st.sqrtN r c
  let flag' : Nat → Nat → ℝ := fun r c =>
    if r < rows ∧ c < cols then (cell r c).2.2.2 else st.stopFlag r c
  { result := res', tau := tau', sqrtN := n', oldTau := tau', oldSqrtN := n',
    stopFlag := flag', ckptTau := st.ckptTau, ckptN := st.ckptN }

/-- `tu = 15`, the total iteration count of the saca loop. -/
def saca_tu : Nat := 15

/-- `tl = 8`, the lower-bound iteration index of the saca loop. -/
def saca_tl : Nat := 8

/-- `step_size = 1.15`, the per-iteration growth factor of `size_f`. -/
def saca_step_size : ℝ := 1.15

/-- The per-run normalization constant `dn = sqrt(ln(rows*cols)) * 2`. -/
def saca_dn (rows cols : Nat) : ℝ :=
  Real.sqrt (Real.log ((rows * cols : Nat) : ℝ)) * 2

/-- The stop-condition threshold `lambda = dn * 1.0`. -/
def saca_lambda (rows cols : Nat) : ℝ := saca_dn rows cols * 1.0

/-- The initial buffer contents of `saca_2d`: all zeros except `old_sqrt_n`,
which starts as ones. -/
def saca_start : SacaState where
  result := fun _ _ => 0
  tau := fun _ _ => 0
  sqrtN := fun _ _ => 0
  oldTau := fun _ _ => 0
  oldSqrtN := fun _ _ => 1
  stopFlag := fun _ _ => 0
  ckptTau := fun _ _ => 0
  ckptN := fun _ _ => 0

/-- The loop-carried data of `saca_2d`: the arrays, `size_f` and
`lower_bound_check`. -/
structure LoopAcc where
  st : SacaState
  sizeF : ℝ
  boundCheck : Bool

/-- One body of the multiscale loop of `saca_2d`, at loop index `s`: radius from
`size_f.floor()`, one `single_iteration_2d`, `size_f *= step_size`, and at
`s == tl` the activation of `lower_bound_check` plus the checkpoint snapshot of
`(new_tau, new_sqrt_n)` into the stop lanes. -/
def saca_body (image_a image_b : Nat → Nat → ℝ) (threshold_a threshold_b : ℝ)
    (rows cols : Nat) (acc : LoopAcc) (s : Nat) : LoopAcc :=
  let radius := Nat.floor acc.sizeF
  let st' := single_iteration_2d image_a image_b threshold_a threshold_b rows cols
    radius (saca_dn rows cols) (saca_lambda rows cols) acc.boundCheck acc.st
  let sizeF' := acc.sizeF * saca_step_size
  if s = saca_tl then
    { st := { st' with ckptTau := st'.tau, ckptN := st'.sqrtN },
      sizeF := sizeF', boundCheck := true }
  else
    { st := st', sizeF := sizeF', boundCheck := acc.boundCheck }

/-- Run the loop bodies with indices `s0, s0+1, …, s0+n-1` starting from `acc`. -/
def saca_run_from (image_a image_b : Nat → Nat → ℝ) (threshold_a threshold_b : ℝ)
    (rows cols s0 : Nat) (acc : LoopAcc) : Nat → LoopAcc
  | 0 => acc
  | n + 1 => saca_body image_a image_b threshold_a threshold_b rows cols
      (saca_run_from image_a image_b threshold_a threshold_b rows cols s0 acc n)
      (s0 + n)

/-- The state of the `saca_2d` loop after its first `k` bodies (`s = 0..k-1`). -/
def saca_loop (image_a image_b : Nat → Nat → ℝ) (threshold_a threshold_b : ℝ)
    (rows cols k : Nat) : LoopAcc :=
  saca_run_from image_a image_b threshold_a threshold_b rows cols 0
    ⟨saca_start, 1, false⟩ k

/-- `saca_2d` from saca.rs: the shape check, then the `tu`-iteration multiscale
loop; returns the z-score map. -/
def saca_2d (rows_a cols_a : Nat) (image_a : Nat → Nat → ℝ) (rows_b cols_b : Nat)
    (image_b : Nat → Nat → ℝ) (threshold_a threshold_b : ℝ) :
    Except ArrayError (Nat → Nat → ℝ) :=
  if (rows_a, cols_a) ≠ (rows_b, cols_b) then
    .error (.MismatchedArrayShapes [rows_a, cols_a] [rows_b, cols_b])
  else
    .ok (saca_loop image_a image_b threshold_a threshold_b rows_a cols_a saca_tu).st.result

/-! Auxiliary lemmas about the loop and the iteration. -/

theorem aux_loop_succ (iA iB : Nat → Nat → ℝ) (ta tb : ℝ) (rows cols k : Nat) :
    saca_loop iA iB ta tb rows cols (k + 1) =
      saca_body iA iB ta tb rows cols (saca_loop iA iB ta tb rows cols k) k := by
  simp [saca_loop, saca_run_from]

theorem aux_run_from_add (iA iB : Nat → Nat → ℝ) (ta tb : ℝ) (rows cols s0 : Nat)
    (acc : LoopAcc) (n m : Nat) :
    saca_run_from iA iB ta tb rows cols s0 acc (n + m) =
      saca_run_from iA iB ta tb rows cols (s0 + n)
        (saca_run_from iA iB ta tb rows cols s0 acc n) m := by
  induction m with
  | zero => rfl
  | succ m ih =>
      show saca_run_from iA iB ta tb rows cols s0 acc (n + m + 1) = _
      rw [saca_run_from, ih]
      rw [saca_run_from]
      ring_nf

theorem aux_loop_as_run_from (iA iB : Nat → Nat → ℝ) (ta tb : ℝ)
    (rows cols k n : Nat) :
    saca_loop iA iB ta tb rows cols (k + n) =
      saca_run_from iA iB ta tb rows cols k
        (saca_loop iA iB ta tb rows cols k) n := by
  rw [saca_loop, aux_run_from_add]
  simp [saca_loop]

theorem aux_iter_ckpt (iA iB : Nat → Nat → ℝ) (ta tb : ℝ) (rows cols radius : Nat)
    (dn lambda : ℝ) (bc : Bool) (st : SacaState) :
    (single_iteration_2d iA iB ta tb rows cols radius dn lambda bc st).ckptTau =
        st.ckptTau ∧
      (single_iteration_2d iA iB ta tb rows cols radius dn lambda bc st).ckptN =
        st.ckptN :=
  ⟨rfl, rfl⟩

theorem aux_iter_old (iA iB : Nat → Nat → ℝ) (ta tb : ℝ) (rows cols radius : Nat)
    (dn lambda : ℝ) (bc : Bool) (st : SacaState) :
    (single_iteration_2d iA iB ta tb rows cols radius dn lambda bc st).oldTau =
        (single_iteration_2d iA iB ta tb rows cols radius dn lambda bc st).tau ∧
      (single_iteration_2d iA iB ta tb rows cols radius dn lambda bc st).oldSqrtN =
        (single_iteration_2d iA iB ta tb rows cols radius dn lambda bc st).sqrtN :=
  ⟨rfl, rfl⟩

theorem aux_iter_flag_false (iA iB : Nat → Nat → ℝ) (ta tb : ℝ)
    (rows cols radius : Nat) (dn lambda : ℝ) (st : SacaState) :
    (single_iteration_2d iA iB ta tb rows cols radius dn lambda false st).stopFlag =
      st.stopFlag := by
  funext r c
  simp [single_iteration_2d]

theorem aux_iter_skip (iA iB : Nat → Nat → ℝ) (ta tb : ℝ) (rows cols radius : Nat)
    (dn lambda : ℝ) (st : SacaState) (r c : Nat) (h : st.stopFlag r c ≠ 0) :
    (single_iteration_2d iA iB ta tb rows cols radius dn lambda true st).result r c =
        st.result r c ∧
      (single_iteration_2d iA iB ta tb rows cols radius dn lambda true st).tau r c =
        st.tau r c ∧
      (single_iteration_2d iA iB ta tb rows cols radius dn lambda true st).sqrtN r c =
        st.sqrtN r c ∧
      (single_iteration_2d iA iB ta tb rows cols radius dn lambda true st).stopFlag r c =
        st.stopFlag r c := by
  simp [single_iteration_2d, h]

theorem aux_body_flag (iA iB : Nat → Nat → ℝ) (ta tb : ℝ) (rows cols : Nat)
    (acc : LoopAcc) (s : Nat) :
    (saca_body iA iB ta tb rows cols acc s).st.stopFlag =
      (single_iteration_2d iA iB ta tb rows cols (Nat.floor acc.sizeF)
        (saca_dn rows cols) (saca_lambda rows cols) acc.boundCheck acc.st).stopFlag := by
  unfold saca_body
  split <;> rfl

theorem aux_body_old (iA iB : Nat → Nat → ℝ) (ta tb : ℝ) (rows cols : Nat)
    (acc : LoopAcc) (s : Nat) :
    (saca_body iA iB ta tb rows cols acc s).st.oldTau =
        (saca_body iA iB ta tb rows cols acc s).st.tau ∧
      (saca_body iA iB ta tb rows cols acc s).st.oldSqrtN =
        (saca_body iA iB ta tb rows cols acc s).st.sqrtN := by
  unfold saca_body
  split <;> exact ⟨rfl, rfl⟩

theorem aux_body_ckpt_ne (iA iB : Nat → Nat → ℝ) (ta tb : ℝ) (rows cols : Nat)
    (acc : LoopAcc) (s : Nat) (hs : s ≠ saca_tl) :
    (saca_body iA iB ta tb rows cols acc s).st.ckptTau = acc.st.ckptTau ∧
      (saca_body iA iB ta tb rows cols acc s).st.ckptN = acc.st.ckptN := by
  unfold saca_body
  simp [hs]
  exact ⟨rfl, rfl⟩

theorem aux_body_bc (iA iB : Nat → Nat → ℝ) (ta tb : ℝ) (rows cols : Nat)
    (acc : LoopAcc) (s : Nat) :
    (saca_body iA iB ta tb rows cols acc s).boundCheck =
      (if s = saca_tl then true else acc.boundCheck) := by
  unfold saca_body
  split <;> rfl

theorem aux_sizeF (iA iB : Nat → Nat → ℝ) (ta tb : ℝ) (rows cols k : Nat) :
    (saca_loop iA iB ta tb rows cols k).sizeF = saca_step_size ^ k := by
  induction k with
  | zero => simp [saca_loop, saca_run_from]
  | succ k ih =>
      rw [aux_loop_succ]
      unfold saca_body
      split <;> simp [ih, pow_succ]

theorem aux_bc_iff (iA iB : Nat → Nat → ℝ) (ta tb : ℝ) (rows cols k : Nat) :
    (saca_loop iA iB ta tb rows cols k).boundCheck = true ↔ saca_tl < k := by
  induction k with
  | zero => simp [saca_loop, saca_run_from]
  | succ k ih =>
      rw [aux_loop_succ, aux_body_bc]
      by_cases hs : k = saca_tl
      · simp [hs]
      · simp only [if_neg hs, ih]
        unfold saca_tl at hs ⊢
        omega

theorem aux_flag_early (iA iB : Nat → Nat → ℝ) (ta tb : ℝ) (rows cols k : Nat)
    (hk : k ≤ saca_tl + 1) :
    (saca_loop iA iB ta tb rows cols k).st.stopFlag = saca_start.stopFlag := by
  induction k with
  | zero => rfl
  | succ k ih =>
      have hk' : k ≤ saca_tl + 1 := Nat.le_of_succ_le hk
      have hbc : (saca_loop iA iB ta tb rows cols k).boundCheck = false := by
        have := aux_bc_iff iA iB ta tb rows cols k
        rcases Bool.eq_false_or_eq_true
            (saca_loop iA iB ta tb rows cols k).boundCheck with h | h
        · exact absurd (this.mp h) (by unfold saca_tl at hk ⊢; omega)
        · exact h
      rw [aux_loop_succ, aux_body_flag, hbc, aux_iter_flag_false, ih hk']

theorem aux_flag_imp_bc (iA iB : Nat → Nat → ℝ) (ta tb : ℝ) (rows cols k r c : Nat)
    (h : (saca_loop iA iB ta tb rows cols k).st.stopFlag r c ≠ 0) :
    (saca_loop iA iB ta tb rows cols k).boundCheck = true := by
  induction k with
  | zero => exact absurd rfl h
  | succ k ih =>
      rcases Bool.eq_false_or_eq_true
          (saca_loop iA iB ta tb rows cols k).boundCheck with hbc | hbc
      · rw [aux_loop_succ, aux_body_bc]
        split
        · rfl
        · exact hbc
      · rw [aux_loop_succ, aux_body_flag, hbc, aux_iter_flag_false] at h
        exact absurd (ih h) (by simp [hbc])

theorem aux_body_skip (iA iB : Nat → Nat → ℝ) (ta tb : ℝ) (rows cols : Nat)
    (acc : LoopAcc) (s r c : Nat) (hbc : acc.boundCheck = true)
    (h : acc.st.stopFlag r c ≠ 0) :
    (saca_body iA iB ta tb rows cols acc s).boundCheck = true ∧
      (saca_body iA iB ta tb rows cols acc s).st.result r c = acc.st.result r c ∧
      (saca_body iA iB ta tb rows cols acc s).st.tau r c = acc.st.tau r c ∧
      (saca_body iA iB ta tb rows cols acc s).st.sqrtN r c = acc.st.sqrtN r c ∧
      (saca_body iA iB ta tb rows cols acc s).st.stopFlag r c = acc.st.stopFlag r c := by
  have hs := aux_iter_skip iA iB ta tb rows cols (Nat.floor acc.sizeF)
    (saca_dn rows cols) (saca_lambda rows cols) acc.st r c h
  unfold saca_body
  rw [hbc]
  split <;>
    exact ⟨rfl, hs.1, hs.2.1, hs.2.2.1, hs.2.2.2⟩

theorem aux_run_from_skip (iA iB : Nat → Nat → ℝ) (ta tb : ℝ)
    (rows cols s0 : Nat) (acc : LoopAcc) (n r c : Nat)
    (hbc : acc.boundCheck = true) (h : acc.st.stopFlag r c ≠ 0) :
    (saca_run_from iA iB ta tb rows cols s0 acc n).boundCheck = true ∧
      (saca_run_from iA iB ta tb rows cols s0 acc n).st.result r c =
        acc.st.result r c ∧
      (saca_run_from iA iB ta tb rows cols s0 acc n).st.tau r c = acc.st.tau r c ∧
      (saca_run_from iA iB ta tb rows cols s0 acc n).st.sqrtN r c =
        acc.st.sqrtN r c ∧
      (saca_run_from iA iB ta tb rows cols s0 acc n).st.stopFlag r c =
        acc.st.stopFlag r c := by
  induction n with
  | zero => exact ⟨hbc, rfl, rfl, rfl, rfl⟩
  | succ n ih =>
      have hstep := aux_body_skip iA iB ta tb rows cols
        (saca_run_from iA iB ta tb rows cols s0 acc n) (s0 + n) r c ih.1
        (by rw [ih.2.2.2.2]; exact h)
      rw [saca_run_from]
      refine ⟨hstep.1, ?_, ?_, ?_, ?_⟩
      · rw [hstep.2.1, ih.2.1]
      · rw [hstep.2.2.1, ih.2.2.1]
      · rw [hstep.2.2.2.1, ih.2.2.2.1]
      · rw [hstep.2.2.2.2, ih.2.2.2.2]

theorem aux_ckpt_early (iA iB : Nat → Nat → ℝ) (ta tb : ℝ) (rows cols k : Nat)
    (hk : k ≤ saca_tl) :
    (saca_loop iA iB ta tb rows cols k).st.ckptTau = saca_start.ckptTau ∧
      (saca_loop iA iB ta tb rows cols k).st.ckptN = saca_start.ckptN := by
  induction k with
  | zero => exact ⟨rfl, rfl⟩
  | succ k ih =>
      have hk' : k ≤ saca_tl := Nat.le_of_succ_le hk
      have hb := aux_body_ckpt_ne iA iB ta tb rows cols
        (saca_loop iA iB ta tb rows cols k) k (by omega)
      rw [aux_loop_succ]
      exact ⟨hb.1.trans (ih hk').1, hb.2.trans (ih hk').2⟩

theorem aux_ckpt_snapshot (iA iB : Nat → Nat → ℝ) (ta tb : ℝ) (rows cols : Nat) :
    (saca_loop iA iB ta tb rows cols (saca_tl + 1)).st.ckptTau =
        (saca_loop iA iB ta tb rows cols (saca_tl + 1)).st.tau ∧
      (saca_loop iA iB ta tb rows cols (saca_tl + 1)).st.ckptN =
        (saca_loop iA iB ta tb rows cols (saca_tl + 1)).st.sqrtN := by
  rw [aux_loop_succ]
  unfold saca_body
  simp only [if_pos rfl]
  exact ⟨rfl, rfl⟩

theorem aux_ckpt_late (iA iB : Nat → Nat → ℝ) (ta tb : ℝ) (rows cols k : Nat)
    (hk : saca_tl + 1 ≤ k) :
    (saca_loop iA iB ta tb rows cols k).st.ckptTau =
        (saca_loop iA iB ta tb rows cols (saca_tl + 1)).st.ckptTau ∧
      (saca_loop iA iB ta tb rows cols k).st.ckptN =
        (saca_loop iA iB ta tb rows cols (saca_tl + 1)).st.ckptN := by
  induction k, hk using Nat.le_induction with
  | base => exact ⟨rfl, rfl⟩
  | succ k hk ih =>
      have hb := aux_body_ckpt_ne iA iB ta tb rows cols
        (saca_loop iA iB ta tb rows cols k) k (by unfold saca_tl at hk ⊢; omega)
      rw [aux_loop_succ]
      exact ⟨hb.1.trans ih.1, hb.2.trans ih.2⟩

theorem aux_iter_cells_false (iA iB : Nat → Nat → ℝ) (ta tb : ℝ)
    (rows cols radius : Nat) (dn lambda : ℝ) (st : SacaState) (r c : Nat)
    (hr : r < rows) (hc : c < cols) :
    (single_iteration_2d iA iB ta tb rows cols radius dn lambda false st).result r c =
        (pixel_compute iA iB ta tb rows cols (sacaKernel radius) st.oldTau
          st.oldSqrtN dn radius r c).res ∧
      (single_iteration_2d iA iB ta tb rows cols radius dn lambda false st).tau r c =
        (pixel_compute iA iB ta tb rows cols (sacaKernel radius) st.oldTau
          st.oldSqrtN dn radius r c).tau ∧
      (single_iteration_2d iA iB ta tb rows cols radius dn lambda false st).sqrtN r c =
        (pixel_compute iA iB ta tb rows cols (sacaKernel radius) st.oldTau
          st.oldSqrtN dn radius r c).sqrtN := by
  simp [single_iteration_2d, hr, hc]

theorem aux_iter_cells_freeze (iA iB : Nat → Nat → ℝ) (ta tb : ℝ)
    (rows cols radius : Nat) (dn lambda : ℝ) (st : SacaState) (r c : Nat)
    (hr : r < rows) (hc : c < cols) (hflag : st.stopFlag r c = 0)
    (hgt : |st.ckptTau r c - (pixel_compute iA iB ta tb rows cols (sacaKernel radius)
        st.oldTau st.oldSqrtN dn radius r c).tau| * st.ckptN r c > lambda) :
    (single_iteration_2d iA iB ta tb rows cols radius dn lambda true st).result r c =
        (pixel_compute iA iB ta tb rows cols (sacaKernel radius) st.oldTau
          st.oldSqrtN dn radius r c).res ∧
      (single_iteration_2d iA iB ta tb rows cols radius dn lambda true st).tau r c =
        st.oldTau r c ∧
      (single_iteration_2d iA iB ta tb rows cols radius dn lambda true st).sqrtN r c =
        st.oldSqrtN r c ∧
      (single_iteration_2d iA iB ta tb rows cols radius dn lambda true st).stopFlag r c =
        1 := by
  simp [single_iteration_2d, hr, hc, hflag, hgt]

theorem aux_iter_cells_nofreeze (iA iB : Nat → Nat → ℝ) (ta tb : ℝ)
    (rows cols radius : Nat) (dn lambda : ℝ) (st : SacaState) (r c : Nat)
    (hr : r < rows) (hc : c < cols) (hflag : st.stopFlag r c = 0)
    (hle : ¬ |st.ckptTau r c - (pixel_compute iA iB ta tb rows cols (sacaKernel radius)
        st.oldTau st.oldSqrtN dn radius r c).tau| * st.ckptN r c > lambda) :
    (single_iteration_2d iA iB ta tb rows cols radius dn lambda true st).result r c =
        (pixel_compute iA iB ta tb rows cols (sacaKernel radius) st.oldTau
          st.oldSqrtN dn radius r c).res ∧
      (single_iteration_2d iA iB ta tb rows cols radius dn lambda true st).tau r c =
        (pixel_compute iA iB ta tb rows cols (sacaKernel radius) st.oldTau
          st.oldSqrtN dn radius r c).tau ∧
      (single_iteration_2d iA iB ta tb rows cols radius dn lambda true st).sqrtN r c =
        (pixel_compute iA iB ta tb rows cols (sacaKernel radius) st.oldTau
          st.oldSqrtN dn radius r c).sqrtN ∧
      (single_iteration_2d iA iB ta tb rows cols radius dn lambda true st).stopFlag r c =
        st.stopFlag r c := by
  simp [single_iteration_2d, hr, hc, hflag, hle]

theorem aux_pixel_sqrtN (iA iB : Nat → Nat → ℝ) (ta tb : ℝ) (rows cols : Nat)
    (kernel old_tau old_sqrt_n : Nat → Nat → ℝ) (dn : ℝ) (radius row col : Nat) :
    (pixel_compute iA iB ta tb rows cols kernel old_tau old_sqrt_n dn radius
        row col).sqrtN =
      Real.sqrt (effective_sample_size (threshold_weights ta tb
        (pixel_buffers iA iB kernel old_tau old_sqrt_n dn rows cols radius row col).1
        (pixel_buffers iA iB kernel old_tau old_sqrt_n dn rows cols radius row col).2.1
        (pixel_buffers iA iB kernel old_tau old_sqrt_n dn rows cols radius row col).2.2)) := by
  dsimp only [pixel_compute]
  split <;> rfl

theorem aux_pixel_degenerate (iA iB : Nat → Nat → ℝ) (ta tb : ℝ) (rows cols : Nat)
    (kernel old_tau old_sqrt_n : Nat → Nat → ℝ) (dn : ℝ) (radius row col : Nat)
    (h : Real.sqrt (effective_sample_size (threshold_weights ta tb
        (pixel_buffers iA iB kernel old_tau old_sqrt_n dn rows cols radius row col).1
        (pixel_buffers iA iB kernel old_tau old_sqrt_n dn rows cols radius row col).2.1
        (pixel_buffers iA iB kernel old_tau old_sqrt_n dn rows cols radius
          row col).2.2)) ≤ 0) :
    (pixel_compute iA iB ta tb rows cols kernel old_tau old_sqrt_n dn radius
        row col).tau = 0 ∧
      (pixel_compute iA iB ta tb rows cols kernel old_tau old_sqrt_n dn radius
        row col).res = 0 := by
  dsimp only [pixel_compute]
  rw [if_pos h]
  exact ⟨rfl, rfl⟩

theorem aux_pixel_ok (iA iB : Nat → Nat → ℝ) (ta tb : ℝ) (rows cols : Nat)
    (kernel old_tau old_sqrt_n : Nat → Nat → ℝ) (dn : ℝ) (radius row col : Nat)
    (h : ¬ Real.sqrt (effective_sample_size (threshold_weights ta tb
        (pixel_buffers iA iB kernel old_tau old_sqrt_n dn rows cols radius row col).1
        (pixel_buffers iA iB kernel old_tau old_sqrt_n dn rows cols radius row col).2.1
        (pixel_buffers iA iB kernel old_tau old_sqrt_n dn rows cols radius
          row col).2.2)) ≤ 0) :
    (pixel_compute iA iB ta tb rows cols kernel old_tau old_sqrt_n dn radius
        row col).tau =
      (weighted_kendall_tau_b
        (pixel_buffers iA iB kernel old_tau old_sqrt_n dn rows cols radius row col).1
        (pixel_buffers iA iB kernel old_tau old_sqrt_n dn rows cols radius row col).2.1
        (threshold_weights ta tb
          (pixel_buffers iA iB kernel old_tau old_sqrt_n dn rows cols radius row col).1
          (pixel_buffers iA iB kernel old_tau old_sqrt_n dn rows cols radius row col).2.1
          (pixel_buffers iA iB kernel old_tau old_sqrt_n dn rows cols radius
            row col).2.2)).getD 0 ∧
      (pixel_compute iA iB ta tb rows cols kernel old_tau old_sqrt_n dn radius
          row col).res =
        (pixel_compute iA iB ta tb rows cols kernel old_tau old_sqrt_n dn radius
            row col).tau *
          Real.sqrt (effective_sample_size (threshold_weights ta tb
            (pixel_buffers iA iB kernel old_tau old_sqrt_n dn rows cols radius row col).1
            (pixel_buffers iA iB kernel old_tau old_sqrt_n dn rows cols radius row col).2.1
            (pixel_buffers iA iB kernel old_tau old_sqrt_n dn rows cols radius
              row col).2.2)) * 1.5 := by
  dsimp only [pixel_compute]
  rw [if_neg h]
  exact ⟨rfl, rfl⟩

theorem aux_loop_old (iA iB : Nat → Nat → ℝ) (ta tb : ℝ) (rows cols k : Nat)
    (hk : 1 ≤ k) :
    (saca_loop iA iB ta tb rows cols k).st.oldTau =
        (saca_loop iA iB ta tb rows cols k).st.tau ∧
      (saca_loop iA iB ta tb rows cols k).st.oldSqrtN =
        (saca_loop iA iB ta tb rows cols k).st.sqrtN := by
  obtain ⟨j, rfl⟩ : ∃ j, k = j + 1 := ⟨k - 1, by omega⟩
  rw [aux_loop_succ]
  exact aux_body_old iA iB ta tb rows cols (saca_loop iA iB ta tb rows cols j) j

theorem aux_cell_far (radius : Nat) (falloff iv : ℝ) (row col : Nat)
    (h : (radius : ℝ) / falloff <
      Real.sqrt (((col : ℝ) - (radius : ℝ)) ^ 2 + ((row : ℝ) - (radius : ℝ)) ^ 2) /
        falloff) :
    weighted_circle_cell radius falloff iv row col = 0 := by
  dsimp only [weighted_circle_cell]
  rw [if_neg (not_le.mpr h)]

theorem aux_cell_zero (radius : Nat) (falloff iv : ℝ) (row col : Nat)
    (h1 : Real.sqrt (((col : ℝ) - (radius : ℝ)) ^ 2 + ((row : ℝ) - (radius : ℝ)) ^ 2) /
        falloff ≤ (radius : ℝ) / falloff)
    (h2 : iv ≤
      Real.sqrt (((col : ℝ) - (radius : ℝ)) ^ 2 + ((row : ℝ) - (radius : ℝ)) ^ 2) /
        falloff) :
    weighted_circle_cell radius falloff iv row col = 0 := by
  dsimp only [weighted_circle_cell]
  rw [if_pos h1, if_pos h2]

theorem aux_cell_lin (radius : Nat) (falloff iv : ℝ) (row col : Nat)
    (h1 : Real.sqrt (((col : ℝ) - (radius : ℝ)) ^ 2 + ((row : ℝ) - (radius : ℝ)) ^ 2) /
        falloff ≤ (radius : ℝ) / falloff)
    (h2 : Real.sqrt (((col : ℝ) - (radius : ℝ)) ^ 2 + ((row : ℝ) - (radius : ℝ)) ^ 2) /
        falloff < iv) :
    weighted_circle_cell radius falloff iv row col =
      iv -
        Real.sqrt (((col : ℝ) - (radius : ℝ)) ^ 2 + ((row : ℝ) - (radius : ℝ)) ^ 2) /
          falloff := by
  dsimp only [weighted_circle_cell]
  rw [if_pos h1, if_neg (not_le.mpr h2)]

theorem aux_cell_nonneg (radius : Nat) (falloff : ℝ) (row col : Nat) :
    0 ≤ weighted_circle_cell radius falloff 1 row col := by
  dsimp only [weighted_circle_cell]
  split_ifs with h1 h2
  · exact le_rfl
  · linarith [not_le.mp h2]
  · exact le_rfl

theorem aux_cell_le_one (radius : Nat) (falloff : ℝ) (row col : Nat)
    (hf : 0 < falloff) :
    weighted_circle_cell radius falloff 1 row col ≤ 1 := by
  dsimp only [weighted_circle_cell]
  split_ifs with h1 h2
  · norm_num
  · have := div_nonneg
      (Real.sqrt_nonneg (((col : ℝ) - (radius : ℝ)) ^ 2 + ((row : ℝ) - (radius : ℝ)) ^ 2))
      hf.le
    linarith
  · norm_num

theorem aux_cell_mono (radius : Nat) (falloff : ℝ) (row col row' col' : Nat)
    (hf : 0 < falloff)
    (hle : Real.sqrt (((col : ℝ) - (radius : ℝ)) ^ 2 + ((row : ℝ) - (radius : ℝ)) ^ 2) ≤
      Real.sqrt (((col' : ℝ) - (radius : ℝ)) ^ 2 + ((row' : ℝ) - (radius : ℝ)) ^ 2)) :
    weighted_circle_cell radius falloff 1 row' col' ≤
      weighted_circle_cell radius falloff 1 row col := by
  have hdiv :
      Real.sqrt (((col : ℝ) - (radius : ℝ)) ^ 2 + ((row : ℝ) - (radius : ℝ)) ^ 2) /
          falloff ≤
        Real.sqrt (((col' : ℝ) - (radius : ℝ)) ^ 2 + ((row' : ℝ) - (radius : ℝ)) ^ 2) /
          falloff := by gcongr
  by_cases h1 :
      Real.sqrt (((col' : ℝ) - (radius : ℝ)) ^ 2 + ((row' : ℝ) - (radius : ℝ)) ^ 2) /
        falloff ≤ (radius : ℝ) / falloff
  · by_cases h2 : (1 : ℝ) ≤
        Real.sqrt (((col' : ℝ) - (radius : ℝ)) ^ 2 + ((row' : ℝ) - (radius : ℝ)) ^ 2) /
          falloff
    · rw [aux_cell_zero radius falloff 1 row' col' h1 h2]
      exact aux_cell_nonneg radius falloff row col
    · rw [aux_cell_lin radius falloff 1 row' col' h1 (not_le.mp h2),
        aux_cell_lin radius falloff 1 row col (hdiv.trans h1)
          (lt_of_le_of_lt hdiv (not_le.mp h2))]
      linarith
  · rw [aux_cell_far radius falloff 1 row' col' (not_le.mp h1)]
    exact aux_cell_nonneg radius falloff row col

theorem aux_cell_strict (radius : Nat) (falloff : ℝ) (row col row' col' : Nat)
    (hf : 0 < falloff)
    (hlt : Real.sqrt (((col : ℝ) - (radius : ℝ)) ^ 2 + ((row : ℝ) - (radius : ℝ)) ^ 2) <
      Real.sqrt (((col' : ℝ) - (radius : ℝ)) ^ 2 + ((row' : ℝ) - (radius : ℝ)) ^ 2))
    (hpos : 0 < weighted_circle_cell radius falloff 1 row' col') :
    weighted_circle_cell radius falloff 1 row' col' <
      weighted_circle_cell radius falloff 1 row col := by
  have hdiv :
      Real.sqrt (((col : ℝ) - (radius : ℝ)) ^ 2 + ((row : ℝ) - (radius : ℝ)) ^ 2) /
          falloff <
        Real.sqrt (((col' : ℝ) - (radius : ℝ)) ^ 2 + ((row' : ℝ) - (radius : ℝ)) ^ 2) /
          falloff := by gcongr
  by_cases h1 :
      Real.sqrt (((col' : ℝ) - (radius : ℝ)) ^ 2 + ((row' : ℝ) - (radius : ℝ)) ^ 2) /
        falloff ≤ (radius : ℝ) / falloff
  · by_cases h2 : (1 : ℝ) ≤
        Real.sqrt (((col' : ℝ) - (radius : ℝ)) ^ 2 + ((row' : ℝ) - (radius : ℝ)) ^ 2) /
          falloff
    · rw [aux_cell_zero radius falloff 1 row' col' h1 h2] at hpos
      exact absurd hpos (lt_irrefl 0)
    · rw [aux_cell_lin radius falloff 1 row' col' h1 (not_le.mp h2),
        aux_cell_lin radius falloff 1 row col (hdiv.le.trans h1)
          (lt_trans hdiv (not_le.mp h2))]
      linarith
  · rw [aux_cell_far radius falloff 1 row' col' (not_le.mp h1)] at hpos
    exact absurd hpos (lt_irrefl 0)

theorem aux_cell_center (radius : Nat) (falloff : ℝ) (hf : 0 < falloff) :
    weighted_circle_cell radius falloff 1 radius radius = 1 := by
  have e : Real.sqrt (((radius : ℝ) - (radius : ℝ)) ^ 2 +
      ((radius : ℝ) - (radius : ℝ)) ^ 2) = 0 := by
    simp
  have h0 : Real.sqrt (((radius : ℝ) - (radius : ℝ)) ^ 2 +
      ((radius : ℝ) - (radius : ℝ)) ^ 2) / falloff = 0 := by
    rw [e, zero_div]
  rw [aux_cell_lin radius falloff 1 radius radius
    (by rw [h0]; exact div_nonneg (Nat.cast_nonneg radius) hf.le)
    (by rw [h0]; norm_num), h0, sub_zero]

theorem aux_window_mem (rs re cs ce r c : Nat) (hre : rs ≤ re + 1)
    (hce : cs ≤ ce + 1) :
    (r, c) ∈ saca_window rs re cs ce ↔ rs ≤ r ∧ r ≤ re ∧ cs ≤ c ∧ c ≤ ce := by
  simp only [saca_window, List.mem_flatMap, List.mem_map, List.mem_range'_1]
  constructor
  · rintro ⟨a, ⟨ha1, ha2⟩, b, ⟨hb1, hb2⟩, hab⟩
    obtain ⟨rfl, rfl⟩ := Prod.mk.injEq a b r c ▸ hab
    refine ⟨ha1, ?_, hb1, ?_⟩ <;> omega
  · rintro ⟨h1, h2, h3, h4⟩
    exact ⟨r, ⟨h1, by omega⟩, c, ⟨h3, by omega⟩, rfl⟩

theorem aux_buf_w_get (iA iB kernel old_tau old_sqrt_n : Nat → Nat → ℝ) (dn : ℝ)
    (radius pos_row pos_col rs re cs ce buf_size i : Nat)
    (hi : i < (saca_window rs re cs ce).length) :
    (fill_buffers_2d iA iB kernel old_tau old_sqrt_n dn radius pos_row pos_col
        rs re cs ce buf_size).2.2.getD i 0 =
      (if consistency_factor old_tau old_sqrt_n dn pos_row pos_col
          ((saca_window rs re cs ce).getD i (0, 0)).1
          ((saca_window rs re cs ce).getD i (0, 0)).2 < 1 then
        kernel
            (((((saca_window rs re cs ce).getD i (0, 0)).1 : Int) - (pos_row : Int) +
              (radius : Int)).toNat)
            (((((saca_window rs re cs ce).getD i (0, 0)).2 : Int) - (pos_col : Int) +
              (radius : Int)).toNat) *
          (1 - consistency_factor old_tau old_sqrt_n dn pos_row pos_col
            ((saca_window rs re cs ce).getD i (0, 0)).1
            ((saca_window rs re cs ce).getD i (0, 0)).2) ^ 2
      else 0) := by
  have hmap : i < ((saca_window rs re cs ce).map fun rc =>
      (if |old_tau rc.1 rc.2 - old_tau pos_row pos_col| *
          (old_sqrt_n pos_row pos_col / dn) < 1 then
        kernel (((rc.1 : Int) - (pos_row : Int) + (radius : Int)).toNat)
            (((rc.2 : Int) - (pos_col : Int) + (radius : Int)).toNat) *
          (1 - |old_tau rc.1 rc.2 - old_tau pos_row pos_col| *
            (old_sqrt_n pos_row pos_col / dn)) ^ 2
      else 0)).length := by
    simpa using hi
  dsimp only [fill_buffers_2d]
  rw [List.getD_eq_getElem?_getD, List.getElem?_append_left hmap,
    List.getElem?_map, List.getElem?_eq_getElem hi,
    List.getD_eq_getElem?_getD, List.getElem?_eq_getElem hi]
  rfl

theorem aux_pixel_res (iA iB : Nat → Nat → ℝ) (ta tb : ℝ) (rows cols : Nat)
    (kernel old_tau old_sqrt_n : Nat → Nat → ℝ) (dn : ℝ) (radius row col : Nat)
    (h : 0 < (pixel_compute iA iB ta tb rows cols kernel old_tau old_sqrt_n dn
      radius row col).sqrtN) :
    (pixel_compute iA iB ta tb rows cols kernel old_tau old_sqrt_n dn radius
        row col).res =
      (pixel_compute iA iB ta tb rows cols kernel old_tau old_sqrt_n dn radius
          row col).tau *
        (pixel_compute iA iB ta tb rows cols kernel old_tau old_sqrt_n dn radius
          row col).sqrtN * 1.5 := by
  dsimp only [pixel_compute] at h ⊢
  by_cases h0 : Real.sqrt (effective_sample_size (threshold_weights ta tb
      (pixel_buffers iA iB kernel old_tau old_sqrt_n dn rows cols radius row col).1
      (pixel_buffers iA iB kernel old_tau old_sqrt_n dn rows cols radius row col).2.1
      (pixel_buffers iA iB kernel old_tau old_sqrt_n dn rows cols radius
        row col).2.2)) ≤ 0
  · rw [if_pos h0] at h
    exact absurd h (not_lt.mpr h0)
  · rw [if_neg h0]

/-! Claim theorems. -/

/-- C2: in `saca_2d` the flag `lower_bound_check` starts `false` and is `true`
after `k` loop bodies exactly when `k > tl = 8`; the checkpoint lanes keep their
initial zeros through the first `tl + 1` states, at the `s == tl` transition
they are snapshotted once from the current `(new_tau, new_sqrt_n)`, and every
later state carries that same snapshot unchanged. -/
theorem C2_bound_check_checkpoint_schedule (iA iB : Nat → Nat → ℝ) (ta tb : ℝ)
    (rows cols : Nat) :
    (saca_loop iA iB ta tb rows cols 0).boundCheck = false ∧
      (∀ k, (saca_loop iA iB ta tb rows cols k).boundCheck = true ↔ saca_tl < k) ∧
      (∀ k, k ≤ saca_tl →
        (saca_loop iA iB ta tb rows cols k).st.ckptTau = saca_start.ckptTau ∧
          (saca_loop iA iB ta tb rows cols k).st.ckptN = saca_start.ckptN) ∧
      ((saca_loop iA iB ta tb rows cols (saca_tl + 1)).st.ckptTau =
          (saca_loop iA iB ta tb rows cols (saca_tl + 1)).st.tau ∧
        (saca_loop iA iB ta tb rows cols (saca_tl + 1)).st.ckptN =
          (saca_loop iA iB ta tb rows cols (saca_tl + 1)).st.sqrtN) ∧
      (∀ k, saca_tl + 1 ≤ k →
        (saca_loop iA iB ta tb rows cols k).st.ckptTau =
            (saca_loop iA iB ta tb rows cols (saca_tl + 1)).st.ckptTau ∧
          (saca_loop iA iB ta tb rows cols k).st.ckptN =
            (saca_loop iA iB ta tb rows cols (saca_tl + 1)).st.ckptN) :=
  ⟨rfl, fun k => aux_bc_iff iA iB ta tb rows cols k,
    fun k hk => aux_ckpt_early iA iB ta tb rows cols k hk,
    aux_ckpt_snapshot iA iB ta tb rows cols,
    fun k hk => aux_ckpt_late iA iB ta tb rows cols k hk⟩

/-- C5: `saca_2d` on images with different dimension tuples returns the
`MismatchedArrayShapes` error carrying both shapes, before any per-pixel
computation; on equal shapes it returns `Ok` with the loop's result map — no
other error value is ever produced. -/
theorem C5_shape_mismatch_rejection (rows_a cols_a : Nat) (iA : Nat → Nat → ℝ)
    (rows_b cols_b : Nat) (iB : Nat → Nat → ℝ) (ta tb : ℝ) :
    ((rows_a, cols_a) ≠ (rows_b, cols_b) →
      saca_2d rows_a cols_a iA rows_b cols_b iB ta tb =
        .error (.MismatchedArrayShapes [rows_a, cols_a] [rows_b, cols_b])) ∧
      ((rows_a, cols_a) = (rows_b, cols_b) →
        saca_2d rows_a cols_a iA rows_b cols_b iB ta tb =
          .ok (saca_loop iA iB ta tb rows_a cols_a saca_tu).st.result) := by
  constructor <;> intro h <;> simp [saca_2d, h]

/-- C6: the multiscale loop of `saca_2d` consists of exactly `tu = 15` bodies
run unconditionally, the loop state after `k` bodies is obtained by folding the
body `k` times, `size_f` starts at `1.0` and after `k` bodies equals
`step_size ^ k` with `step_size = 1.15`, so the radius used by body `k` is
`floor(1.15 ^ k)`. -/
theorem C6_fixed_iteration_schedule (iA iB : Nat → Nat → ℝ) (ta tb : ℝ)
    (rows cols : Nat) :
    saca_tu = 15 ∧ saca_step_size = 1.15 ∧
      (saca_loop iA iB ta tb rows cols 0).sizeF = 1 ∧
      (∀ k, saca_loop iA iB ta tb rows cols (k + 1) =
        saca_body iA iB ta tb rows cols (saca_loop iA iB ta tb rows cols k) k) ∧
      (∀ k, (saca_loop iA iB ta tb rows cols k).sizeF = saca_step_size ^ k) ∧
      (∀ k, Nat.floor ((saca_loop iA iB ta tb rows cols k).sizeF) =
        Nat.floor (saca_step_size ^ k)) ∧
      saca_2d rows cols iA rows cols iB ta tb =
        .ok (saca_loop iA iB ta tb rows cols 15).st.result := by
  refine ⟨rfl, rfl, rfl, fun k => aux_loop_succ iA iB ta tb rows cols k,
    fun k => aux_sizeF iA iB ta tb rows cols k,
    fun k => by rw [aux_sizeF iA iB ta tb rows cols k], ?_⟩
  simp [saca_2d, saca_tu]

/-- C3: in an iteration with `bound_check` active, a still-active pixel whose
computed tau gives `|checkpoint_tau - tau| * checkpoint_sqrt_n > lambda` gets
`stop_flag = 1` and its `tau`/`sqrt_n` cells reverted to `old_tau`/`old_sqrt_n`
at that pixel; in the saca loop `lambda = dn` and, from the first iteration on,
`old_tau`/`old_sqrt_n` hold exactly the previous iteration's
`new_tau`/`new_sqrt_n`, so the reverted values are the pre-iteration ones. -/
theorem C3_stop_condition_freeze_revert (iA iB : Nat → Nat → ℝ) (ta tb : ℝ)
    (rows cols radius : Nat) (dn lambda : ℝ) (st : SacaState) (r c : Nat)
    (hr : r < rows) (hc : c < cols) (hflag : st.stopFlag r c = 0) :
    (|st.ckptTau r c - (pixel_compute iA iB ta tb rows cols (sacaKernel radius)
        st.oldTau st.oldSqrtN dn radius r c).tau| * st.ckptN r c > lambda →
      (single_iteration_2d iA iB ta tb rows cols radius dn lambda true st).stopFlag r c =
          1 ∧
        (single_iteration_2d iA iB ta tb rows cols radius dn lambda true st).tau r c =
          st.oldTau r c ∧
        (single_iteration_2d iA iB ta tb rows cols radius dn lambda true st).sqrtN r c =
          st.oldSqrtN r c) ∧
      (∀ rows' cols', saca_lambda rows' cols' = saca_dn rows' cols') ∧
      (∀ k, 1 ≤ k →
        (saca_loop iA iB ta tb rows cols k).st.oldTau =
            (saca_loop iA iB ta tb rows cols k).st.tau ∧
          (saca_loop iA iB ta tb rows cols k).st.oldSqrtN =
            (saca_loop iA iB ta tb rows cols k).st.sqrtN) := by
  refine ⟨fun hgt => ?_, fun rows' cols' => by norm_num [saca_lambda],
    fun k hk => aux_loop_old iA iB ta tb rows cols k hk⟩
  have h := aux_iter_cells_freeze iA iB ta tb rows cols radius dn lambda st r c
    hr hc hflag hgt
  exact ⟨h.2.2.2, h.2.1, h.2.2.1⟩

/-- Witness for C3 at a concrete input: a 1×1 state with clear stop flag;
the hypotheses are discharged and the `lambda = dn` conjunct is read off. -/
theorem C3_witness :
    (0 < 1 ∧ 0 < 1 ∧ saca_start.stopFlag 0 0 = 0) ∧
      (∀ rows' cols', saca_lambda rows' cols' = saca_dn rows' cols') :=
  ⟨⟨Nat.one_pos, Nat.one_pos, rfl⟩,
    (C3_stop_condition_freeze_revert (fun _ _ => 0) (fun _ _ => 0) 0 0 1 1 1 0 1
      saca_start 0 0 Nat.one_pos Nat.one_pos rfl).2.1⟩

/-- C4: for an in-bounds pixel processed with `bound_check` inactive,
`new_sqrt_n` is set to `sqrt(effective_sample_size(thresholded weights))`; when
that value is `≤ 0` the pixel's tau and z-score are both set to `0`, otherwise
tau is the weighted Kendall Tau-b of the buffers with `0.0` fallback and the
z-score is `tau * sqrt_n * 1.5`. -/
theorem C4_pixel_estimate_update (iA iB : Nat → Nat → ℝ) (ta tb : ℝ)
    (rows cols radius : Nat) (dn lambda : ℝ) (st : SacaState) (r c : Nat)
    (hr : r < rows) (hc : c < cols) :
    (single_iteration_2d iA iB ta tb rows cols radius dn lambda false st).sqrtN r c =
        Real.sqrt (effective_sample_size (threshold_weights ta tb
          (pixel_buffers iA iB (sacaKernel radius) st.oldTau st.oldSqrtN dn rows
            cols radius r c).1
          (pixel_buffers iA iB (sacaKernel radius) st.oldTau st.oldSqrtN dn rows
            cols radius r c).2.1
          (pixel_buffers iA iB (sacaKernel radius) st.oldTau st.oldSqrtN dn rows
            cols radius r c).2.2)) ∧
      ((single_iteration_2d iA iB ta tb rows cols radius dn lambda false st).sqrtN r c ≤
          0 →
        (single_iteration_2d iA iB ta tb rows cols radius dn lambda false st).tau r c =
            0 ∧
          (single_iteration_2d iA iB ta tb rows cols radius dn lambda false st).result r c =
            0) ∧
      (0 < (single_iteration_2d iA iB ta tb rows cols radius dn lambda false st).sqrtN r c →
        (single_iteration_2d iA iB ta tb rows cols radius dn lambda false st).tau r c =
            (weighted_kendall_tau_b
              (pixel_buffers iA iB (sacaKernel radius) st.oldTau st.oldSqrtN dn
                rows cols radius r c).1
              (pixel_buffers iA iB (sacaKernel radius) st.oldTau st.oldSqrtN dn
                rows cols radius r c).2.1
              (threshold_weights ta tb
                (pixel_buffers iA iB (sacaKernel radius) st.oldTau st.oldSqrtN dn
                  rows cols radius r c).1
                (pixel_buffers iA iB (sacaKernel radius) st.oldTau st.oldSqrtN dn
                  rows cols radius r c).2.1
                (pixel_buffers iA iB (sacaKernel radius) st.oldTau st.oldSqrtN dn
                  rows cols radius r c).2.2)).getD 0 ∧
          (single_iteration_2d iA iB ta tb rows cols radius dn lambda false st).result r c =
            (single_iteration_2d iA iB ta tb rows cols radius dn lambda false st).tau r c *
              (single_iteration_2d iA iB ta tb rows cols radius dn lambda false st).sqrtN r c *
              1.5) := by
  have hcells := aux_iter_cells_false iA iB ta tb rows cols radius dn lambda st r c hr hc
  have hnn := aux_pixel_sqrtN iA iB ta tb rows cols (sacaKernel radius) st.oldTau
    st.oldSqrtN dn radius r c
  refine ⟨hcells.2.2.trans hnn, fun hle => ?_, fun hpos => ?_⟩
  · rw [hcells.2.2, hnn] at hle
    have h := aux_pixel_degenerate iA iB ta tb rows cols (sacaKernel radius)
      st.oldTau st.oldSqrtN dn radius r c hle
    exact ⟨hcells.2.1.trans h.1, hcells.1.trans h.2⟩
  · rw [hcells.2.2] at hpos
    have hok := aux_pixel_ok iA iB ta tb rows cols (sacaKernel radius) st.oldTau
      st.oldSqrtN dn radius r c (by rw [← hnn]; exact not_le.mpr hpos)
    have hres := aux_pixel_res iA iB ta tb rows cols (sacaKernel radius) st.oldTau
      st.oldSqrtN dn radius r c hpos
    refine ⟨hcells.2.1.trans hok.1, ?_⟩
    rw [hcells.1, hcells.2.1, hcells.2.2]
    exact hres

/-- Witness for C4 at a concrete input: 1×1 zero images with zero thresholds;
the in-bounds hypotheses are discharged and the `sqrt_n` equation is read off. -/
theorem C4_witness :
    (0 < 1 ∧ 0 < 1) ∧
      (single_iteration_2d (fun _ _ => 0) (fun _ _ => 0) 0 0 1 1 1 1 1 false
          saca_start).sqrtN 0 0 =
        Real.sqrt (effective_sample_size (threshold_weights 0 0
          (pixel_buffers (fun _ _ => 0) (fun _ _ => 0) (sacaKernel 1)
            saca_start.oldTau saca_start.oldSqrtN 1 1 1 1 0 0).1
          (pixel_buffers (fun _ _ => 0) (fun _ _ => 0) (sacaKernel 1)
            saca_start.oldTau saca_start.oldSqrtN 1 1 1 1 0 0).2.1
          (pixel_buffers (fun _ _ => 0) (fun _ _ => 0) (sacaKernel 1)
            saca_start.oldTau saca_start.oldSqrtN 1 1 1 1 0 0).2.2)) :=
  ⟨⟨Nat.one_pos, Nat.one_pos⟩,
    (C4_pixel_estimate_update (fun _ _ => 0) (fun _ _ => 0) 0 0 1 1 1 1 1
      saca_start 0 0 Nat.one_pos Nat.one_pos).1⟩

/-- C7: once a pixel's stop flag is nonzero while `lower_bound_check` is
active, any further run of loop bodies keeps the flag and leaves the pixel's
result, tau and sqrt_n cells untouched; in the actual `saca_2d` run a nonzero
flag implies `lower_bound_check` is active, and the loop state after `k + n`
bodies is the state after `k` bodies advanced by the remaining `n` bodies, so
a pixel frozen at any loop state stays frozen and unmodified to the end. -/
theorem C7_stop_flag_monotone_skip (iA iB : Nat → Nat → ℝ) (ta tb : ℝ)
    (rows cols s0 : Nat) (acc : LoopAcc) (n r c : Nat)
    (hbc : acc.boundCheck = true) (hflag : acc.st.stopFlag r c ≠ 0) :
    ((saca_run_from iA iB ta tb rows cols s0 acc n).boundCheck = true ∧
      (saca_run_from iA iB ta tb rows cols s0 acc n).st.result r c =
        acc.st.result r c ∧
      (saca_run_from iA iB ta tb rows cols s0 acc n).st.tau r c = acc.st.tau r c ∧
      (saca_run_from iA iB ta tb rows cols s0 acc n).st.sqrtN r c =
        acc.st.sqrtN r c ∧
      (saca_run_from iA iB ta tb rows cols s0 acc n).st.stopFlag r c =
        acc.st.stopFlag r c) ∧
      (∀ k, (saca_loop iA iB ta tb rows cols k).st.stopFlag r c ≠ 0 →
        (saca_loop iA iB ta tb rows cols k).boundCheck = true) ∧
      (∀ k m, saca_loop iA iB ta tb rows cols (k + m) =
        saca_run_from iA iB ta tb rows cols k
          (saca_loop iA iB ta tb rows cols k) m) :=
  ⟨aux_run_from_skip iA iB ta tb rows cols s0 acc n r c hbc hflag,
    fun k hk => aux_flag_imp_bc iA iB ta tb rows cols k r c hk,
    fun k m => aux_loop_as_run_from iA iB ta tb rows cols k m⟩

/-- Witness for C7 at a concrete input: a state whose stop flag is already `1`
with `lower_bound_check` active; after three more bodies the flag and the
pixel's cells are unchanged. -/
theorem C7_witness :
    (LoopAcc.mk { saca_start with stopFlag := fun _ _ => 1 } 1 true).boundCheck =
        true ∧
      (LoopAcc.mk { saca_start with stopFlag := fun _ _ => 1 } 1
          true).st.stopFlag 0 0 ≠ 0 ∧
      (saca_run_from (fun _ _ => 0) (fun _ _ => 0) 0 0 1 1 9
          (LoopAcc.mk { saca_start with stopFlag := fun _ _ => 1 } 1 true)
          3).st.stopFlag 0 0 =
        (LoopAcc.mk { saca_start with stopFlag := fun _ _ => 1 } 1
          true).st.stopFlag 0 0 :=
  ⟨rfl, one_ne_zero,
    (C7_stop_flag_monotone_skip (fun _ _ => 0) (fun _ _ => 0) 0 0 1 1 9
      (LoopAcc.mk { saca_start with stopFlag := fun _ _ => 1 } 1 true) 3 0 0
      rfl one_ne_zero).1.2.2.2.2⟩

/-- C10: in the iteration in which a pixel's stop condition triggers, only its
tau and sqrt_n cells are reverted to `old_tau`/`old_sqrt_n`; its z-score cell
keeps the value computed in that very iteration — which equals
`tau * sqrt_n * 1.5` whenever the computed `sqrt_n` was positive — and any
further loop bodies leave the frozen pixel's z-score cell unchanged. -/
theorem C10_zscore_not_reverted (iA iB : Nat → Nat → ℝ) (ta tb : ℝ)
    (rows cols radius : Nat) (dn lambda : ℝ) (st : SacaState) (r c : Nat)
    (hr : r < rows) (hc : c < cols) (hflag : st.stopFlag r c = 0) :
    (|st.ckptTau r c - (pixel_compute iA iB ta tb rows cols (sacaKernel radius)
        st.oldTau st.oldSqrtN dn radius r c).tau| * st.ckptN r c > lambda →
      (single_iteration_2d iA iB ta tb rows cols radius dn lambda true st).result r c =
          (pixel_compute iA iB ta tb rows cols (sacaKernel radius) st.oldTau
            st.oldSqrtN dn radius r c).res ∧
        (0 < (pixel_compute iA iB ta tb rows cols (sacaKernel radius) st.oldTau
            st.oldSqrtN dn radius r c).sqrtN →
          (single_iteration_2d iA iB ta tb rows cols radius dn lambda true st).result r c =
            (pixel_compute iA iB ta tb rows cols (sacaKernel radius) st.oldTau
                st.oldSqrtN dn radius r c).tau *
              (pixel_compute iA iB ta tb rows cols (sacaKernel radius) st.oldTau
                st.oldSqrtN dn radius r c).sqrtN * 1.5) ∧
        (single_iteration_2d iA iB ta tb rows cols radius dn lambda true st).tau r c =
          st.oldTau r c ∧
        (single_iteration_2d iA iB ta tb rows cols radius dn lambda true st).sqrtN r c =
          st.oldSqrtN r c) ∧
      (∀ s0 n acc, acc.boundCheck = true → acc.st.stopFlag r c ≠ 0 →
        (saca_run_from iA iB ta tb rows cols s0 acc n).st.result r c =
          acc.st.result r c) := by
  refine ⟨fun hgt => ?_,
    fun s0 n acc hbc hf =>
      (aux_run_from_skip iA iB ta tb rows cols s0 acc n r c hbc hf).2.1⟩
  have h := aux_iter_cells_freeze iA iB ta tb rows cols radius dn lambda st r c
    hr hc hflag hgt
  refine ⟨h.1, fun hpos => ?_, h.2.1, h.2.2.1⟩
  rw [h.1]
  exact aux_pixel_res iA iB ta tb rows cols (sacaKernel radius) st.oldTau
    st.oldSqrtN dn radius r c hpos

/-- Witness for C10 at a concrete input: a 1×1 state with clear stop flag;
the hypotheses are discharged and the skip-preservation conjunct is read off
at a frozen accumulator. -/
theorem C10_witness :
    (0 < 1 ∧ 0 < 1 ∧ saca_start.stopFlag 0 0 = 0) ∧
      (saca_run_from (fun _ _ => 0) (fun _ _ => 0) 0 0 1 1 0
          (LoopAcc.mk { saca_start with stopFlag := fun _ _ => 1 } 1 true)
          2).st.result 0 0 =
        (LoopAcc.mk { saca_start with stopFlag := fun _ _ => 1 } 1
          true).st.result 0 0 :=
  ⟨⟨Nat.one_pos, Nat.one_pos, rfl⟩,
    (C10_zscore_not_reverted (fun _ _ => 0) (fun _ _ => 0) 0 0 1 1 1 1 1
      saca_start 0 0 Nat.one_pos Nat.one_pos rfl).2 0 2
      (LoopAcc.mk { saca_start with stopFlag := fun _ _ => 1 } 1 true) rfl
      one_ne_zero⟩

/-- C8: `weighted_circle` rejects radius `0` with the invalid-parameter error;
for every positive radius it returns the `(2*radius+1)`-sided kernel whose cell
at Euclidean distance `d` from the center, with `d' = d / falloff_radius` and
`center' = radius / falloff_radius`, is `0` when `d' > center'`, `0` when
`d' ≥ initial_value` (default `1.0`), and `initial_value - d'` otherwise. -/
theorem C8_weighted_circle_formula (radius : Nat) (falloff : ℝ) (iv0 : Option ℝ)
    (row col : Nat) :
    weighted_circle 0 falloff iv0 =
        .error (.InvalidArrayParameterValueLess "circle_radius" 0) ∧
      (radius ≠ 0 → weighted_circle radius falloff iv0 =
        .ok fun r c => weighted_circle_cell radius falloff (iv0.getD 1) r c) ∧
      ((radius : ℝ) / falloff <
          Real.sqrt (((col : ℝ) - (radius : ℝ)) ^ 2 + ((row : ℝ) - (radius : ℝ)) ^ 2) /
            falloff →
        weighted_circle_cell radius falloff (iv0.getD 1) row col = 0) ∧
      (Real.sqrt (((col : ℝ) - (radius : ℝ)) ^ 2 + ((row : ℝ) - (radius : ℝ)) ^ 2) /
            falloff ≤ (radius : ℝ) / falloff →
        iv0.getD 1 ≤
          Real.sqrt (((col : ℝ) - (radius : ℝ)) ^ 2 + ((row : ℝ) - (radius : ℝ)) ^ 2) /
            falloff →
        weighted_circle_cell radius falloff (iv0.getD 1) row col = 0) ∧
      (Real.sqrt (((col : ℝ) - (radius : ℝ)) ^ 2 + ((row : ℝ) - (radius : ℝ)) ^ 2) /
            falloff ≤ (radius : ℝ) / falloff →
        Real.sqrt (((col : ℝ) - (radius : ℝ)) ^ 2 + ((row : ℝ) - (radius : ℝ)) ^ 2) /
            falloff < iv0.getD 1 →
        weighted_circle_cell radius falloff (iv0.getD 1) row col =
          iv0.getD 1 -
            Real.sqrt (((col : ℝ) - (radius : ℝ)) ^ 2 + ((row : ℝ) - (radius : ℝ)) ^ 2) /
              falloff) :=
  ⟨by simp [weighted_circle], fun h => by simp [weighted_circle, h],
    fun h => aux_cell_far radius falloff (iv0.getD 1) row col h,
    fun h1 h2 => aux_cell_zero radius falloff (iv0.getD 1) row col h1 h2,
    fun h1 h2 => aux_cell_lin radius falloff (iv0.getD 1) row col h1 h2⟩

/-- Counterexample to C9 as stated: for `radius = 2`, `falloff_radius = 1`,
default `initial_value = 1`, the cells `(2,3)` and `(2,4)` both lie inside the
circular footprint (distances `1` and `2`, both `≤ radius`), distance strictly
increases between them, yet both weights are `0` — the weight does not strictly
decrease with distance inside the footprint. -/
theorem C9_counterexample_strict_decrease :
    weighted_circle 2 1 none =
        Except.ok (fun r c => weighted_circle_cell 2 1 ((none : Option ℝ).getD 1) r c) ∧
      Real.sqrt ((((3 : Nat) : ℝ) - ((2 : Nat) : ℝ)) ^ 2 +
          (((2 : Nat) : ℝ) - ((2 : Nat) : ℝ)) ^ 2) = 1 ∧
      Real.sqrt ((((4 : Nat) : ℝ) - ((2 : Nat) : ℝ)) ^ 2 +
          (((2 : Nat) : ℝ) - ((2 : Nat) : ℝ)) ^ 2) = 2 ∧
      weighted_circle_cell 2 1 1 2 3 = 0 ∧
      weighted_circle_cell 2 1 1 2 4 = 0 ∧
      ¬ weighted_circle_cell 2 1 1 2 4 < weighted_circle_cell 2 1 1 2 3 := by
  have d1 : Real.sqrt ((((3 : Nat) : ℝ) - ((2 : Nat) : ℝ)) ^ 2 +
      (((2 : Nat) : ℝ) - ((2 : Nat) : ℝ)) ^ 2) = 1 := by
    norm_num [Real.sqrt_one]
  have d2 : Real.sqrt ((((4 : Nat) : ℝ) - ((2 : Nat) : ℝ)) ^ 2 +
      (((2 : Nat) : ℝ) - ((2 : Nat) : ℝ)) ^ 2) = 2 := by
    have e : (((4 : Nat) : ℝ) - ((2 : Nat) : ℝ)) ^ 2 +
        (((2 : Nat) : ℝ) - ((2 : Nat) : ℝ)) ^ 2 = 2 ^ 2 := by norm_num
    rw [e, Real.sqrt_sq (by norm_num : (0 : ℝ) ≤ 2)]
  have c1 : weighted_circle_cell 2 1 1 2 3 = 0 :=
    aux_cell_zero 2 1 1 2 3 (by rw [d1]; norm_num) (by rw [d1]; norm_num)
  have c2 : weighted_circle_cell 2 1 1 2 4 = 0 :=
    aux_cell_zero 2 1 1 2 4 (by rw [d2]; norm_num) (by rw [d2]; norm_num)
  exact ⟨by simp [weighted_circle], d1, d2, c1, c2, by rw [c1, c2]; exact lt_irrefl 0⟩

/-- C9 amended: for radius `> 0`, `falloff_radius > 0` and the default
`initial_value = 1`, weights are `0` at all cells outside the circular
footprint of the radius; the weight is non-increasing in the Euclidean distance
from the center, strictly decreasing whenever the farther cell still has
positive weight; and the center cell holds the maximum weight `1`. -/
theorem C9_weighted_kernel_monotonicity (radius : Nat) (falloff : ℝ)
    (row col row' col' : Nat) (hrad : 0 < radius) (hf : 0 < falloff) :
    (weighted_circle radius falloff none =
        .ok fun r c => weighted_circle_cell radius falloff 1 r c) ∧
      ((radius : ℝ) <
          Real.sqrt (((col : ℝ) - (radius : ℝ)) ^ 2 + ((row : ℝ) - (radius : ℝ)) ^ 2) →
        weighted_circle_cell radius falloff 1 row col = 0) ∧
      (Real.sqrt (((col : ℝ) - (radius : ℝ)) ^ 2 + ((row : ℝ) - (radius : ℝ)) ^ 2) ≤
          Real.sqrt (((col' : ℝ) - (radius : ℝ)) ^ 2 + ((row' : ℝ) - (radius : ℝ)) ^ 2) →
        weighted_circle_cell radius falloff 1 row' col' ≤
          weighted_circle_cell radius falloff 1 row col) ∧
      (Real.sqrt (((col : ℝ) - (radius : ℝ)) ^ 2 + ((row : ℝ) - (radius : ℝ)) ^ 2) <
          Real.sqrt (((col' : ℝ) - (radius : ℝ)) ^ 2 + ((row' : ℝ) - (radius : ℝ)) ^ 2) →
        0 < weighted_circle_cell radius falloff 1 row' col' →
        weighted_circle_cell radius falloff 1 row' col' <
          weighted_circle_cell radius falloff 1 row col) ∧
      weighted_circle_cell radius falloff 1 radius radius = 1 ∧
      weighted_circle_cell radius falloff 1 row col ≤ 1 := by
  refine ⟨by simp [weighted_circle, Nat.pos_iff_ne_zero.mp hrad], fun h => ?_,
    fun h => aux_cell_mono radius falloff row col row' col' hf h,
    fun h hpos => aux_cell_strict radius falloff row col row' col' hf h hpos,
    aux_cell_center radius falloff hf,
    aux_cell_le_one radius falloff row col hf⟩
  exact aux_cell_far radius falloff 1 row col (by gcongr)

/-- Witness for C9 at a concrete input: radius `1`, `falloff_radius = 1`; the
hypotheses are discharged and the center-maximum conjunct is read off. -/
theorem C9_witness :
    ((0 : Nat) < 1 ∧ (0 : ℝ) < 1) ∧ weighted_circle_cell 1 1 1 1 1 = 1 :=
  ⟨⟨Nat.one_pos, one_pos⟩,
    (C9_weighted_kernel_monotonicity 1 1 0 0 0 0 Nat.one_pos one_pos).2.2.2.2.1⟩

/-- Counterexample to C1 as stated: with `old_tau[center] = 0`,
`old_tau[cell] = 1/2`, `old_sqrt_n[center] = 1`, `dn = 2` and kernel weight `1`,
the code stores `(1 - 1/4)² = 9/16` for the cell (its factor multiplies by
`old_sqrt_n[center]/dn`), while the spec's division formula gives
`tau_diff = (1/2)/(1/2) = 1 ≥ 1` and hence the weight `0`. -/
theorem C1_counterexample_consistency_factor :
    (fill_buffers_2d (fun _ _ => 0) (fun _ _ => 0) (fun _ _ => 1)
          (fun _ c => if c = 1 then 1 / 2 else 0) (fun _ _ => 1) 2 1 0 0 0 0 0 1
          9).2.2.getD 1 0 = 9 / 16 ∧
      spec_consistency_factor (fun _ c => if c = 1 then 1 / 2 else 0)
        (fun _ _ => 1) 2 0 0 0 1 = 1 ∧
      (if spec_consistency_factor (fun _ c => if c = 1 then 1 / 2 else 0)
            (fun _ _ => 1) 2 0 0 0 1 < 1 then
        (1 : ℝ) * (1 - spec_consistency_factor
          (fun _ c => if c = 1 then 1 / 2 else 0) (fun _ _ => 1) 2 0 0 0 1) ^ 2
      else 0) = 0 ∧
      (9 / 16 : ℝ) ≠ 0 := by
  have habs : |(1 : ℝ) / 2 - 0| = 1 / 2 := by
    rw [sub_zero]
    exact abs_of_pos (by norm_num)
  have habs2 : |(1 : ℝ) / 2| = 1 / 2 := abs_of_pos (by norm_num)
  have hspec : spec_consistency_factor (fun _ c => if c = 1 then 1 / 2 else 0)
      (fun _ _ => 1) 2 0 0 0 1 = 1 := by
    dsimp only [spec_consistency_factor]
    norm_num [habs2]
  refine ⟨?_, hspec, by rw [hspec]; norm_num, by norm_num⟩
  have hw : saca_window 0 0 0 1 = [(0, 0), (0, 1)] := rfl
  dsimp only [fill_buffers_2d]
  rw [hw]
  simp only [List.map_cons, List.map_nil, List.cons_append, List.getD_cons_succ,
    List.getD_cons_zero]
  norm_num [habs2]

/-- C1 amended: in `fill_buffers_2d` the window of a center pixel consists
exactly of the cells inside the clamped bounds, and the weight stored for the
`i`-th window cell is the looked-up kernel weight re-weighted by the
consistency factor
`tau_diff = |old_tau[cell] - old_tau[center]| * (old_sqrt_n[center] / dn)` —
multiplication by `old_sqrt_n[center]/dn`, not division — multiplied by
`(1 - tau_diff)²` when `tau_diff < 1` and zeroed otherwise; in `saca_2d`,
`dn = sqrt(ln(rows*cols)) * 2` is computed once per run. -/
theorem C1_fill_buffers_consistency_reweight
    (iA iB kernel old_tau old_sqrt_n : Nat → Nat → ℝ) (dn : ℝ)
    (radius pos_row pos_col rs re cs ce buf_size i : Nat)
    (hre : rs ≤ re + 1) (hce : cs ≤ ce + 1)
    (hi : i < (saca_window rs re cs ce).length) :
    (∀ r c : Nat,
      (r, c) ∈ saca_window rs re cs ce ↔ rs ≤ r ∧ r ≤ re ∧ cs ≤ c ∧ c ≤ ce) ∧
      (fill_buffers_2d iA iB kernel old_tau old_sqrt_n dn radius pos_row pos_col
          rs re cs ce buf_size).2.2.getD i 0 =
        (if consistency_factor old_tau old_sqrt_n dn pos_row pos_col
            ((saca_window rs re cs ce).getD i (0, 0)).1
            ((saca_window rs re cs ce).getD i (0, 0)).2 < 1 then
          kernel
              (((((saca_window rs re cs ce).getD i (0, 0)).1 : Int) -
                (pos_row : Int) + (radius : Int)).toNat)
              (((((saca_window rs re cs ce).getD i (0, 0)).2 : Int) -
                (pos_col : Int) + (radius : Int)).toNat) *
            (1 - consistency_factor old_tau old_sqrt_n dn pos_row pos_col
              ((saca_window rs re cs ce).getD i (0, 0)).1
              ((saca_window rs re cs ce).getD i (0, 0)).2) ^ 2
        else 0) ∧
      (∀ rows cols : Nat,
        saca_dn rows cols = Real.sqrt (Real.log ((rows * cols : Nat) : ℝ)) * 2) :=
  ⟨fun r c => aux_window_mem rs re cs ce r c hre hce,
    aux_buf_w_get iA iB kernel old_tau old_sqrt_n dn radius pos_row pos_col
      rs re cs ce buf_size i hi,
    fun _ _ => rfl⟩

/-- Witness for C1 at a concrete input: the 1-cell window with `rs = re = cs =
ce = 0`; the bounds hypotheses are discharged and the `dn` conjunct is read
off. -/
theorem C1_witness :
    ((0 : Nat) ≤ 0 + 1 ∧ (0 : Nat) < (saca_window 0 0 0 0).length) ∧
      (∀ rows cols : Nat,
        saca_dn rows cols = Real.sqrt (Real.log ((rows * cols : Nat) : ℝ)) * 2) :=
  ⟨⟨Nat.zero_le 1, by decide⟩,
    (C1_fill_buffers_consistency_reweight (fun _ _ => 0) (fun _ _ => 0)
      (fun _ _ => 1) (fun _ _ => 0) (fun _ _ => 1) 2 1 0 0 0 0 0 0 9 0
      (Nat.zero_le 1) (Nat.zero_le 1) (by decide)).2.2⟩

end
